import Mathlib

/-!
Shallow embedding of the pochi-kawaii backend services:

* `backend/middleware/rate_limiter.py` — `TokenBucket`, `RateLimiter.check_rate_limit`,
  `LoginRateLimiter`.
* `backend/services/circuit_breaker.py` — `CircuitBreaker.call` / `call_async`.
* `backend/services/queue_service.py` — `AIQueueService.add_task`, `get_result`,
  `_wait_for_completion`.
* `backend/services/connection_pool.py` — `ConnectionWrapper.is_expired`,
  `ConnectionPool._validate_connection`, `ConnectionPool.get_connection`.

Wall-clock times and float token counts are modelled as rationals (`ℚ`).
Python dicts are modelled as total functions (`String → _`), matching
`defaultdict` / `dict` lookup semantics.  Thread locks, logging and the
timestamp bookkeeping fields (`created_at` / `expires_at`, consumed only by the
background cleanup task) do not influence the control flow of the modelled
operations and are not represented.
-/

/-! ### Token bucket (`rate_limiter.py`, class `TokenBucket`) -/

structure TokenBucket where
  capacity : ℚ
  refill_rate : ℚ
  tokens : ℚ
  last_refill : ℚ
deriving DecidableEq, Repr

/-- Python `TokenBucket.__init__`: the bucket starts full. -/
def TokenBucket.init (capacity refill_rate now : ℚ) : TokenBucket :=
  { capacity := capacity, refill_rate := refill_rate, tokens := capacity, last_refill := now }

/-- The refill step at the top of `TokenBucket.consume`:
`tokens = min(capacity, tokens + elapsed * refill_rate); last_refill = now`. -/
def TokenBucket.refill (b : TokenBucket) (now : ℚ) : TokenBucket :=
  { b with tokens := min b.capacity (b.tokens + (now - b.last_refill) * b.refill_rate),
           last_refill := now }

/-- Python `TokenBucket.consume(tokens)`: refill, then decrement and succeed iff enough
tokens are available. -/
def TokenBucket.consume (b : TokenBucket) (now n : ℚ) : Bool × TokenBucket :=
  let b1 := b.refill now
  if n ≤ b1.tokens then (true, { b1 with tokens := b1.tokens - n })
  else (false, b1)

/-- Python `TokenBucket.get_wait_time()`: `0` if at least one token is available,
otherwise `(1 - tokens) / refill_rate`.  (No refill happens here.) -/
def TokenBucket.get_wait_time (b : TokenBucket) : ℚ :=
  if 1 ≤ b.tokens then 0 else (1 - b.tokens) / b.refill_rate

/-! ### Per-IP rate check (`RateLimiter.check_rate_limit`)

The per-IP dict of bucket pairs is external to the check itself; the check for
one client is a function of that client's `(minute_bucket, hour_bucket)` pair. -/

structure RateCheck where
  allowed : Bool
  retry_after : ℚ
  minute_bucket : TokenBucket
  hour_bucket : TokenBucket
deriving DecidableEq, Repr

/-- Python `RateLimiter.check_rate_limit(client_ip)`, for the buckets of one client:
try the minute bucket first; on rejection return that bucket's wait time (the
hour bucket is untouched); otherwise try the hour bucket the same way. -/
def check_rate_limit (mb hb : TokenBucket) (now : ℚ) : RateCheck :=
  let r1 := mb.consume now 1
  if r1.1 = false then
    { allowed := false, retry_after := r1.2.get_wait_time,
      minute_bucket := r1.2, hour_bucket := hb }
  else
    let r2 := hb.consume now 1
    if r2.1 = false then
      { allowed := false, retry_after := r2.2.get_wait_time,
        minute_bucket := r1.2, hour_bucket := r2.2 }
    else
      { allowed := true, retry_after := 0, minute_bucket := r1.2, hour_bucket := r2.2 }

/-! ### Login limiter (`rate_limiter.py`, class `LoginRateLimiter`)

`self.attempts` is a `defaultdict(list)`, modelled as a total function with
default `[]`; `del` is modelled as resetting to `[]` (indistinguishable for a
`defaultdict`). -/

structure LoginRateLimiter where
  max_attempts : ℕ
  lockout_duration : ℚ
  cleanup_interval : ℚ
  attempts : String → List ℚ
  last_cleanup : ℚ

/-- Python `LoginRateLimiter._cleanup_old_attempts`: every `cleanup_interval`, drop
attempts older than the lockout window for every IP. -/
def cleanup_old_attempts (st : LoginRateLimiter) (now : ℚ) : LoginRateLimiter :=
  if now - st.last_cleanup < st.cleanup_interval then st
  else
    { st with
      attempts := fun ip =>
        (st.attempts ip).filter (fun t => decide (now - t < st.lockout_duration)),
      last_cleanup := now }

/-- Python `LoginRateLimiter.check_login_attempt(client_ip)`: filter this IP's attempts
to the lockout window; reject with `(False, 0)` once `max_attempts` remain,
otherwise record the attempt and allow. -/
def check_login_attempt (st : LoginRateLimiter) (ip : String) (now : ℚ) :
    (Bool × ℕ) × LoginRateLimiter :=
  let st1 := cleanup_old_attempts st now
  let recent := (st1.attempts ip).filter (fun t => decide (now - t < st1.lockout_duration))
  if st1.max_attempts ≤ recent.length then
    ((false, 0), { st1 with attempts := fun s => if s = ip then recent else st1.attempts s })
  else
    ((true, st1.max_attempts - (recent.length + 1)),
     { st1 with attempts := fun s => if s = ip then recent ++ [now] else st1.attempts s })

/-- Python `LoginRateLimiter.reset_attempts(client_ip)`: forget this IP's attempts. -/
def reset_attempts (st : LoginRateLimiter) (ip : String) : LoginRateLimiter :=
  { st with attempts := fun s => if s = ip then [] else st.attempts s }

/-! ### Circuit breaker (`circuit_breaker.py`)

`call` and `call_async` have character-for-character identical control flow
around the invocation, so a single embedding covers both.  The wrapped function
either returns normally or raises `expected_exception`; this is the Boolean
`funcSucceeds`.  The three observable outcomes of `call` are: the result is
returned, the exception is re-raised, or `CircuitBreakerOpen` is raised without
the wrapped function being invoked. -/

inductive CircuitState
  | closed
  | opened
  | halfOpen
deriving DecidableEq, Repr

structure CircuitBreaker where
  failure_threshold : ℕ
  recovery_timeout : ℚ
  failure_count : ℕ
  last_failure_time : Option ℚ
  state : CircuitState
deriving DecidableEq, Repr

/-- Python `CircuitBreaker._should_attempt_reset`. -/
def should_attempt_reset (cb : CircuitBreaker) (now : ℚ) : Bool :=
  if cb.state ≠ CircuitState.opened then false
  else
    match cb.last_failure_time with
    | none => false
    | some t => decide (cb.recovery_timeout ≤ now - t)

inductive CallOutcome
  | success
  | failure
  | rejectedOpen
deriving DecidableEq, Repr

structure CallResult where
  outcome : CallOutcome
  invoked : Bool
  breaker : CircuitBreaker
deriving DecidableEq, Repr

/-- Python `CircuitBreaker.call` (and `call_async`). -/
def CircuitBreaker.call (cb : CircuitBreaker) (now : ℚ) (funcSucceeds : Bool) : CallResult :=
  if cb.state = CircuitState.opened ∧ should_attempt_reset cb now = false then
    { outcome := CallOutcome.rejectedOpen, invoked := false, breaker := cb }
  else
    let cb1 := if cb.state = CircuitState.opened then
      { cb with state := CircuitState.halfOpen } else cb
    if funcSucceeds then
      let cb2 := if cb1.state = CircuitState.halfOpen then
        { cb1 with state := CircuitState.closed, failure_count := 0 } else cb1
      { outcome := CallOutcome.success, invoked := true, breaker := cb2 }
    else
      let cb2 := { cb1 with failure_count := cb1.failure_count + 1,
                            last_failure_time := some now }
      let cb3 :=
        if cb1.state = CircuitState.halfOpen then { cb2 with state := CircuitState.opened }
        else if cb2.failure_threshold ≤ cb2.failure_count then
          { cb2 with state := CircuitState.opened }
        else cb2
      { outcome := CallOutcome.failure, invoked := true, breaker := cb3 }

/-- A run of consecutive failing calls at the given times. -/
def failStreak (cb : CircuitBreaker) (ts : List ℚ) : CircuitBreaker :=
  ts.foldl (fun c t => (c.call t false).breaker) cb

/-! ### AI queue service (`queue_service.py`)

The result table `self.processing` is a dict keyed by task id.  The task id in
`add_task` comes from `uuid.uuid4()`; the generated id is a parameter of the
embedding (its freshness is a hypothesis where needed).  `asyncio.Queue` with
`maxsize = max_queue_size` is full — `put_nowait` raises `QueueFull` — iff
`maxsize > 0` and the queue already holds `maxsize` items. -/

structure ResultInfo where
  status : String
  response : Option String
  ai_source : String
  error : Option String
deriving DecidableEq, Repr

abbrev ResultTable := String → Option ResultInfo

/-- The entry `add_task` stores under the fresh id. -/
def queuedInfo : ResultInfo :=
  { status := "queued", response := none, ai_source := "unknown", error := none }

/-- The dict `get_result` returns for an unknown id. -/
def notFoundInfo : ResultInfo :=
  { status := "not_found", response := none, ai_source := "error", error := none }

/-- The dict `get_result` returns when `asyncio.wait_for` times out. -/
def requestTimeoutInfo : ResultInfo :=
  { status := "timeout", response := none, ai_source := "error",
    error := some "Request timeout" }

/-- The dict `_wait_for_completion` returns after exhausting `max_iterations`. -/
def internalTimeoutInfo : ResultInfo :=
  { status := "timeout", response := none, ai_source := "error",
    error := some "Internal timeout - exceeded max wait time" }

structure QueueTask where
  id : String
  prompt : String
  session_id : String
  lang : String
  queue_size : ℕ
deriving DecidableEq, Repr

structure QueueServiceState where
  queue : List QueueTask
  max_queue_size : ℕ
  processing : ResultTable
  total_queued : ℕ
  total_rejected : ℕ

/-- Python `AIQueueService.add_task`: build the task, store the `queued` result entry,
then `put_nowait`; on `QueueFull`, count the rejection and return `None`.  The
`processing` write happens before the enqueue attempt, and the `except` branch
does not undo it. -/
def add_task (st : QueueServiceState) (task_id prompt session_id lang : String)
    (queue_size : ℕ) : Option String × QueueServiceState :=
  let task : QueueTask :=
    { id := task_id, prompt := prompt, session_id := session_id,
      lang := lang, queue_size := queue_size }
  let st1 := { st with
    processing := fun s => if s = task_id then some queuedInfo else st.processing s }
  if 0 < st.max_queue_size ∧ st.max_queue_size ≤ st.queue.length then
    (none, { st1 with total_rejected := st1.total_rejected + 1 })
  else
    (some task_id, { st1 with queue := st1.queue ++ [task],
                              total_queued := st1.total_queued + 1 })

/-- The terminal statuses tested by `_wait_for_completion`:
`["completed", "failed", "cancelled"]`. -/
def isTerminal (s : String) : Bool :=
  s == "completed" || s == "failed" || s == "cancelled"

/-- One polling pass of `_wait_for_completion`, with `fuel` remaining
iterations.  Between iterations the environment (the worker tasks and the
cleanup loop, which run concurrently) may rewrite the table; this is the `env`
step applied at each `asyncio.sleep(0.2)`.  The loop itself never writes the
table: it only threads it through. -/
def waitLoop (env : ResultTable → ResultTable) (task_id : String) :
    ℕ → ResultTable → Option ResultInfo × ResultTable
  | 0, tbl => (none, tbl)
  | fuel + 1, tbl =>
    match tbl task_id with
    | none => (some notFoundInfo, tbl)
    | some info =>
      if isTerminal info.status then (some info, tbl)
      else waitLoop env task_id fuel (env tbl)

/-- The constant `max_iterations = 500` in `_wait_for_completion` (hard cap, 100 s at the
0.2 s poll interval). -/
def max_iterations : ℕ := 500

/-- Python `AIQueueService._wait_for_completion`: poll up to `max_iterations` times,
then give up with the internal timeout result. -/
def wait_for_completion (env : ResultTable → ResultTable) (task_id : String)
    (tbl : ResultTable) : ResultInfo × ResultTable :=
  let r := waitLoop env task_id max_iterations tbl
  (r.1.getD internalTimeoutInfo, r.2)

/-- Python `AIQueueService.get_result`: `not_found` for an unknown id; otherwise run
`_wait_for_completion` under `asyncio.wait_for`.  The caller timeout is
measured in poll iterations (`timeout / 0.2`); whichever bound is hit first
produces its timeout dict, and both carry status `"timeout"`. -/
def get_result (env : ResultTable → ResultTable) (task_id : String)
    (timeout_iters : ℕ) (tbl : ResultTable) : ResultInfo × ResultTable :=
  match tbl task_id with
  | none => (notFoundInfo, tbl)
  | some _ =>
    let r := waitLoop env task_id (min timeout_iters max_iterations) tbl
    match r.1 with
    | some info => (info, r.2)
    | none =>
      (if timeout_iters < max_iterations then requestTimeoutInfo else internalTimeoutInfo,
       r.2)

/-! ### Connection pool (`connection_pool.py`)

A connection is abstracted by its creation time and whether the underlying
`SELECT 1` liveness probe would succeed.  `_create_connection` may fail
(`None`); its successive outcomes inside one acquisition attempt are given by
`fresh : ℕ → Option ConnWrapper` (call `k` uses `fresh k`), and every
successfully created wrapper is stamped `created_at = time.time()`, which is a
hypothesis of the theorems.  One iteration of the retry loop in
`get_connection` is modelled; its outcome is either a yielded connection or
one of the three non-yield continuations. -/

structure ConnWrapper where
  created_at : ℚ
  alive : Bool
deriving DecidableEq, Repr

/-- Python `ConnectionWrapper.is_expired`: `(time.time() - created_at) > max_lifetime`. -/
def ConnWrapper.is_expired (c : ConnWrapper) (now max_lifetime : ℚ) : Bool :=
  decide (max_lifetime < now - c.created_at)

/-- The constant `MAX_CONNECTION_LIFETIME = 3600`. -/
def MAX_CONNECTION_LIFETIME : ℚ := 3600

/-- Python `ConnectionPool._validate_connection`: expired connections fail validation
before the `SELECT 1` probe is even attempted; otherwise the probe decides. -/
def validate_connection (c : ConnWrapper) (now max_lifetime : ℚ) : Bool :=
  if c.is_expired now max_lifetime then false else c.alive

structure PoolState where
  pool : List ConnWrapper
  current_size : ℕ
  pool_size : ℕ
  max_overflow : ℕ
  active_connections : ℕ
deriving DecidableEq, Repr

inductive AcquireOutcome
  | yielded (c : ConnWrapper) (st : PoolState)
  | exhausted (st : PoolState)
  | createFailed (st : PoolState)
  | noConnRetry (st : PoolState)
deriving DecidableEq, Repr

/-- The validation block of `get_connection`: if the connection in hand fails
`_validate_connection`, close it and replace it with a freshly created one
(using create call number `k`); a failed creation raises
`Exception("Failed to create valid connection")`.  A connection that passes —
or the fresh replacement — is yielded to the caller. -/
def validate_or_replace (st : PoolState) (c : ConnWrapper) (now max_lifetime : ℚ)
    (fresh : ℕ → Option ConnWrapper) (k : ℕ) : AcquireOutcome :=
  if validate_connection c now max_lifetime then
    AcquireOutcome.yielded c { st with active_connections := st.active_connections + 1 }
  else
    let st1 := { st with current_size := st.current_size - 1 }
    match fresh k with
    | some c2 =>
      AcquireOutcome.yielded c2
        { st1 with current_size := st1.current_size + 1,
                   active_connections := st1.active_connections + 1 }
    | none => AcquireOutcome.createFailed st1

/-- One iteration of the retry loop in `ConnectionPool.get_connection`: take a
connection from the pool if one is available; otherwise create an overflow
connection when under `pool_size + max_overflow`, or raise
`ConnectionPoolExhausted`.  Whatever connection is in hand then goes through
the validation block. -/
def get_connection_attempt (st : PoolState) (now max_lifetime : ℚ)
    (fresh : ℕ → Option ConnWrapper) : AcquireOutcome :=
  match st.pool with
  | c :: rest => validate_or_replace { st with pool := rest } c now max_lifetime fresh 0
  | [] =>
    if st.current_size < st.pool_size + st.max_overflow then
      match fresh 0 with
      | some c =>
        validate_or_replace { st with current_size := st.current_size + 1 } c now
          max_lifetime fresh 1
      | none => AcquireOutcome.noConnRetry st
    else AcquireOutcome.exhausted st

/-! ### Operation sequences over a token bucket (for the `[0, capacity]` invariant) -/

inductive BucketOp
  | consume (now n : ℚ)
  | getWait
deriving DecidableEq, Repr

/-- Effect of one bucket operation on the bucket state.  `get_wait_time` reads
the state without changing it. -/
def TokenBucket.applyOp (b : TokenBucket) : BucketOp → TokenBucket
  | BucketOp.consume now n => (b.consume now n).2
  | BucketOp.getWait => b

def TokenBucket.runOps (b : TokenBucket) : List BucketOp → TokenBucket
  | [] => b
  | op :: rest => (b.applyOp op).runOps rest

/-- Well-formed operation sequence: wall-clock time never runs backwards and
each `consume` asks for `0 ≤ n ≤ capacity` tokens. -/
def validOps (b : TokenBucket) : List BucketOp → Bool
  | [] => true
  | BucketOp.consume now n :: rest =>
    decide (b.last_refill ≤ now) && decide (0 ≤ n) && decide (n ≤ b.capacity) &&
      validOps (b.applyOp (BucketOp.consume now n)) rest
  | BucketOp.getWait :: rest => validOps b rest

/-! ### Concrete states used in counterexamples and witnesses -/

/-- Minute bucket of a fresh `RateLimiter(30, 500)` client after its minute
allowance is spent: `30/min` gives `refill_rate = 0.5`. -/
def mbEmpty : TokenBucket :=
  { capacity := 30, refill_rate := 1/2, tokens := 0, last_refill := 0 }

/-- Hour bucket of the same client after its hour allowance is spent:
`500/hour` gives `refill_rate = 500/3600 = 5/36`. -/
def hbEmpty : TokenBucket :=
  { capacity := 500, refill_rate := 5/36, tokens := 0, last_refill := 0 }

/-- A minute bucket that still has tokens. -/
def mbCharged : TokenBucket :=
  { capacity := 30, refill_rate := 1/2, tokens := 5, last_refill := 0 }

/-- A closed breaker that has already recorded one failure. -/
def cbOneFailure : CircuitBreaker :=
  { failure_threshold := 5, recovery_timeout := 60, failure_count := 1,
    last_failure_time := some 0, state := CircuitState.closed }

/-- A fresh breaker with `failure_threshold = 2`. -/
def cbFresh2 : CircuitBreaker :=
  { failure_threshold := 2, recovery_timeout := 60, failure_count := 0,
    last_failure_time := none, state := CircuitState.closed }

/-- The breaker `cbFresh2` reaches after two failures (at times 0 and 1):
open, with the failure time recorded. -/
def cbOpenW : CircuitBreaker :=
  { failure_threshold := 2, recovery_timeout := 60, failure_count := 2,
    last_failure_time := some 1, state := CircuitState.opened }

/-- A login limiter whose IP `"ip"` already has two recorded attempts. -/
def loginTwoAttempts : LoginRateLimiter :=
  { max_attempts := 2, lockout_duration := 900, cleanup_interval := 1800,
    attempts := fun s => if s = "ip" then [1, 2] else [], last_cleanup := 0 }

/-- A task sitting in the queue. -/
def taskA : QueueTask :=
  { id := "a", prompt := "p", session_id := "s", lang := "en", queue_size := 0 }

/-- Queue service at capacity: `max_queue_size = 1` with one queued task. -/
def stFullQueue : QueueServiceState :=
  { queue := [taskA], max_queue_size := 1, processing := fun _ => none,
    total_queued := 1, total_rejected := 0 }

/-- Queue service with room left. -/
def stEmptyQueue : QueueServiceState :=
  { queue := [], max_queue_size := 1, processing := fun _ => none,
    total_queued := 0, total_rejected := 0 }

/-- A completed result entry. -/
def completedInfo : ResultInfo :=
  { status := "completed", response := some "ok", ai_source := "m", error := none }

/-- Result table holding one `queued` entry under id `"t"`. -/
def tblQueued : ResultTable :=
  fun s => if s = "t" then some queuedInfo else none

/-- Environment step in which a worker finishes task `"t"`. -/
def envFinish : ResultTable → ResultTable :=
  fun tbl s => if s = "t" then some completedInfo else tbl s

/-- A live pooled connection created at time `0`. -/
def connOld : ConnWrapper := { created_at := 0, alive := true }

/-- Pool holding only `connOld`. -/
def poolOld : PoolState :=
  { pool := [connOld], current_size := 1, pool_size := 1, max_overflow := 0,
    active_connections := 0 }

/-- A `_create_connection` that always succeeds at time `4000`. -/
def freshAt4000 : ℕ → Option ConnWrapper :=
  fun _ => some { created_at := 4000, alive := true }

/-- A small operation sequence on `bFull`. -/
def opsW : List BucketOp :=
  [BucketOp.consume 1 3, BucketOp.getWait, BucketOp.consume 2 10]

/-! ## Helper lemmas -/

/-- On a successful `consume`, the token count drops by exactly `n` from its
refilled value. -/
theorem consume_true_tokens (b : TokenBucket) (now n : ℚ)
    (h : (b.consume now n).1 = true) :
    (b.consume now n).2.tokens = (b.refill now).tokens - n := by
  unfold TokenBucket.consume at h ⊢
  by_cases hc : n ≤ (b.refill now).tokens
  · simp [hc]
  · simp [hc] at h

/-! ## C2 — admission requires both buckets; `retry_after` on rejection -/

/-- C2 as stated is false on the code: with both buckets empty (a
`RateLimiter(30, 500)` client that exhausted both allowances), the call is
rejected by the minute bucket and `retry_after` is that bucket's wait time
(2 s), not the larger of the two buckets' suggested wait times (the hour
bucket suggests 36/5 = 7.2 s). -/
theorem c2_counterexample :
    (check_rate_limit mbEmpty hbEmpty 0).allowed = false ∧
    (check_rate_limit mbEmpty hbEmpty 0).retry_after ≠
      max (check_rate_limit mbEmpty hbEmpty 0).minute_bucket.get_wait_time
          (check_rate_limit mbEmpty hbEmpty 0).hour_bucket.get_wait_time := by
  have h1 : (check_rate_limit mbEmpty hbEmpty 0).allowed = false ∧
      (check_rate_limit mbEmpty hbEmpty 0).retry_after = 2 ∧
      (check_rate_limit mbEmpty hbEmpty 0).minute_bucket.get_wait_time = 2 ∧
      (check_rate_limit mbEmpty hbEmpty 0).hour_bucket.get_wait_time = 36/5 := by
    norm_num [check_rate_limit, TokenBucket.consume, TokenBucket.refill,
      TokenBucket.get_wait_time, mbEmpty, hbEmpty, min_def]
  refine ⟨h1.1, ?_⟩
  rw [h1.2.1, h1.2.2.1, h1.2.2.2, max_eq_right (by norm_num : (2:ℚ) ≤ 36/5)]
  norm_num

/-- C2 amended: a request is admitted iff the minute bucket grants a token and
then the hour bucket grants one; on rejection `retry_after` is the wait time of
the bucket that rejected (minute checked first, hour bucket untouched in that
case), and an admitted request gets `retry_after = 0`. -/
theorem c2_check_rate_limit_amended (mb hb : TokenBucket) (now : ℚ) :
    ((check_rate_limit mb hb now).allowed = true ↔
      (mb.consume now 1).1 = true ∧ (hb.consume now 1).1 = true) ∧
    ((mb.consume now 1).1 = false →
      (check_rate_limit mb hb now).retry_after = (mb.consume now 1).2.get_wait_time ∧
      (check_rate_limit mb hb now).hour_bucket = hb) ∧
    ((mb.consume now 1).1 = true → (hb.consume now 1).1 = false →
      (check_rate_limit mb hb now).retry_after = (hb.consume now 1).2.get_wait_time) ∧
    ((check_rate_limit mb hb now).allowed = true →
      (check_rate_limit mb hb now).retry_after = 0) := by
  cases h1 : (mb.consume now 1).1 <;> cases h2 : (hb.consume now 1).1 <;>
    simp [check_rate_limit, h1, h2]

/-- Witness for C2 amended: minute bucket with tokens, hour bucket empty — the
request is rejected by the hour bucket and gets that bucket's wait time. -/
theorem c2_witness :
    (check_rate_limit mbCharged hbEmpty 0).retry_after =
      ((hbEmpty.consume 0 1).2).get_wait_time :=
  (c2_check_rate_limit_amended mbCharged hbEmpty 0).2.2.1
    (by norm_num [TokenBucket.consume, TokenBucket.refill, mbCharged, min_def])
    (by norm_num [TokenBucket.consume, TokenBucket.refill, hbEmpty, min_def])

/-! ## C3 — effect of a successful call on the failure counter -/

/-- C3 as stated is false on the code: a breaker that is `closed` with one
recorded failure keeps `failure_count = 1` after a successful call — the
counter is not reset to zero while `closed`. -/
theorem c3_counterexample :
    cbOneFailure.state = CircuitState.closed ∧
    (cbOneFailure.call 1 true).outcome = CallOutcome.success ∧
    (cbOneFailure.call 1 true).breaker.failure_count ≠ 0 := by decide

/-- C3 amended: a successful call while `closed` returns normally and leaves
the failure counter (and the state) unchanged; the counter is reset to zero
only by a successful call while `half_open`, which also closes the breaker. -/
theorem c3_success_counter_amended (cb : CircuitBreaker) (now : ℚ) :
    (cb.state = CircuitState.closed →
      (cb.call now true).outcome = CallOutcome.success ∧
      (cb.call now true).breaker.failure_count = cb.failure_count ∧
      (cb.call now true).breaker.state = CircuitState.closed) ∧
    (cb.state = CircuitState.halfOpen →
      (cb.call now true).outcome = CallOutcome.success ∧
      (cb.call now true).breaker.failure_count = 0 ∧
      (cb.call now true).breaker.state = CircuitState.closed) := by
  constructor <;> intro h <;> simp [CircuitBreaker.call, h]

/-- Witness for C3 amended at a closed breaker with one recorded failure. -/
theorem c3_witness :
    (cbOneFailure.call 1 true).outcome = CallOutcome.success ∧
    (cbOneFailure.call 1 true).breaker.failure_count = cbOneFailure.failure_count ∧
    (cbOneFailure.call 1 true).breaker.state = CircuitState.closed :=
  (c3_success_counter_amended cbOneFailure 1).1 (by decide)

/-! ## C9 — a rejection by the hour bucket does not refund the minute token -/

/-- C9: when the minute bucket grants a token but the hour bucket rejects, the
request is rejected and the minute bucket keeps the deduction: its token count
is one below its refilled value. -/
theorem c9_no_refund_on_hour_reject (mb hb : TokenBucket) (now : ℚ)
    (h1 : (mb.consume now 1).1 = true) (h2 : (hb.consume now 1).1 = false) :
    (check_rate_limit mb hb now).allowed = false ∧
    (check_rate_limit mb hb now).minute_bucket = (mb.consume now 1).2 ∧
    (check_rate_limit mb hb now).minute_bucket.tokens = (mb.refill now).tokens - 1 := by
  refine ⟨?_, ?_, ?_⟩
  · simp [check_rate_limit, h1, h2]
  · simp [check_rate_limit, h1, h2]
  · simp [check_rate_limit, h1, h2, consume_true_tokens mb now 1 h1]

/-- Witness for C9: charged minute bucket, empty hour bucket. -/
theorem c9_witness :
    (check_rate_limit mbCharged hbEmpty 0).allowed = false ∧
    (check_rate_limit mbCharged hbEmpty 0).minute_bucket = (mbCharged.consume 0 1).2 ∧
    (check_rate_limit mbCharged hbEmpty 0).minute_bucket.tokens =
      (mbCharged.refill 0).tokens - 1 :=
  c9_no_refund_on_hour_reject mbCharged hbEmpty 0
    (by norm_num [TokenBucket.consume, TokenBucket.refill, mbCharged, min_def])
    (by norm_num [TokenBucket.consume, TokenBucket.refill, hbEmpty, min_def])

/-! ## C7 — token count stays in `[0, capacity]` -/

/-- The bucket state after `consume`, as a single conditional. -/
theorem consume_snd (b : TokenBucket) (now n : ℚ) :
    (b.consume now n).2 =
      if n ≤ (b.refill now).tokens then
        { b.refill now with tokens := (b.refill now).tokens - n }
      else b.refill now := by
  simp only [TokenBucket.consume]
  split <;> rfl

/-- A `consume` touches only `tokens` and `last_refill`. -/
theorem consume_keeps_config (b : TokenBucket) (now n : ℚ) :
    (b.consume now n).2.capacity = b.capacity ∧
    (b.consume now n).2.refill_rate = b.refill_rate := by
  rw [consume_snd]
  split <;> exact ⟨rfl, rfl⟩

/-- One `consume` step preserves `0 ≤ tokens ≤ capacity` when time moves
forward and `0 ≤ n`. -/
theorem consume_bounds (b : TokenBucket) (now n : ℚ)
    (hrate : 0 ≤ b.refill_rate) (ht : b.last_refill ≤ now) (hn : 0 ≤ n)
    (h0 : 0 ≤ b.tokens) (h1 : b.tokens ≤ b.capacity) :
    0 ≤ (b.consume now n).2.tokens ∧ (b.consume now n).2.tokens ≤ b.capacity := by
  have hcap : (0:ℚ) ≤ b.capacity := le_trans h0 h1
  have hr0 : 0 ≤ (b.refill now).tokens := by
    unfold TokenBucket.refill
    exact le_min hcap (add_nonneg h0 (mul_nonneg (by linarith) hrate))
  have hrc : (b.refill now).tokens ≤ b.capacity := min_le_left _ _
  rw [consume_snd]
  by_cases hc : n ≤ (b.refill now).tokens
  · rw [if_pos hc]
    constructor
    · show 0 ≤ (b.refill now).tokens - n
      linarith
    · show (b.refill now).tokens - n ≤ b.capacity
      linarith
  · rw [if_neg hc]
    exact ⟨hr0, hrc⟩

/-- The `[0, capacity]` bound is preserved along any well-formed operation
sequence. -/
theorem runOps_bounds (ops : List BucketOp) : ∀ b : TokenBucket,
    0 ≤ b.refill_rate → 0 ≤ b.tokens → b.tokens ≤ b.capacity →
    validOps b ops = true →
    0 ≤ (b.runOps ops).tokens ∧ (b.runOps ops).tokens ≤ (b.runOps ops).capacity := by
  induction ops with
  | nil => intro b _ h0 h1 _; exact ⟨h0, h1⟩
  | cons op rest ih =>
    intro b hrate h0 h1 hops
    cases op with
    | consume now n =>
      simp only [validOps, Bool.and_eq_true, decide_eq_true_eq] at hops
      obtain ⟨⟨⟨hle, hn⟩, _⟩, hrest⟩ := hops
      have hb := consume_bounds b now n hrate hle hn h0 h1
      have hk := consume_keeps_config b now n
      have step : b.runOps (BucketOp.consume now n :: rest) =
          ((b.consume now n).2).runOps rest := rfl
      rw [step]
      exact ih _ (hk.2 ▸ hrate) hb.1 (hk.1 ▸ hb.2)
        (by simpa [TokenBucket.applyOp] using hrest)
    | getWait =>
      simp only [validOps] at hops
      have step : b.runOps (BucketOp.getWait :: rest) = b.runOps rest := rfl
      rw [step]
      exact ih b hrate h0 h1 hops

/-- C7: starting from a freshly constructed bucket (full, `tokens = capacity`),
any well-formed sequence of `consume` and `get_wait_time` operations keeps the
token count within `[0, capacity]`: the refill is clamped at `capacity` and a
`consume` only decrements when enough tokens are available. -/
theorem c7_token_bound_invariant (cap rate t0 : ℚ) (ops : List BucketOp)
    (hcap : 0 ≤ cap) (hrate : 0 ≤ rate)
    (hops : validOps (TokenBucket.init cap rate t0) ops = true) :
    0 ≤ ((TokenBucket.init cap rate t0).runOps ops).tokens ∧
    ((TokenBucket.init cap rate t0).runOps ops).tokens ≤
      ((TokenBucket.init cap rate t0).runOps ops).capacity :=
  runOps_bounds ops (TokenBucket.init cap rate t0) hrate hcap (le_refl _) hops

/-- Witness for C7 on a `capacity = 10, refill_rate = 1` bucket and a small
operation sequence (including a `consume 10` that must be refused). -/
theorem c7_witness :
    0 ≤ ((TokenBucket.init 10 1 0).runOps opsW).tokens ∧
    ((TokenBucket.init 10 1 0).runOps opsW).tokens ≤
      ((TokenBucket.init 10 1 0).runOps opsW).capacity :=
  c7_token_bound_invariant 10 1 0 opsW (by norm_num) (by norm_num)
    (by norm_num [opsW, validOps, TokenBucket.applyOp, TokenBucket.consume,
      TokenBucket.refill, TokenBucket.init, min_def])

/-! ## C8 — lockout after `max_attempts`, fresh start after `reset` -/

/-- Filtering to the lockout window commutes with the periodic cleanup: the
cleanup filters with the same predicate, so it never changes what
`check_login_attempt` sees for an IP. -/
theorem cleanup_filter_eq (st : LoginRateLimiter) (now : ℚ) (ip : String) :
    ((cleanup_old_attempts st now).attempts ip).filter
      (fun t => decide (now - t < st.lockout_duration)) =
    (st.attempts ip).filter (fun t => decide (now - t < st.lockout_duration)) := by
  unfold cleanup_old_attempts
  split
  · rfl
  · simp [List.filter_filter]

/-- Cleanup does not change the limiter's configuration. -/
theorem cleanup_keeps_config (st : LoginRateLimiter) (now : ℚ) :
    (cleanup_old_attempts st now).max_attempts = st.max_attempts ∧
    (cleanup_old_attempts st now).lockout_duration = st.lockout_duration := by
  unfold cleanup_old_attempts
  split <;> exact ⟨rfl, rfl⟩

/-- C8: once an IP has `max_attempts` attempts inside the lockout window the
next `check_login_attempt` is rejected with `(False, 0)`; and immediately
after `reset_attempts` the next check is allowed (given `max_attempts ≥ 1`),
with `max_attempts - 1` attempts remaining. -/
theorem c8_lockout_and_reset (st : LoginRateLimiter) (ip : String) (now : ℚ) :
    (st.max_attempts ≤
        ((st.attempts ip).filter (fun t => decide (now - t < st.lockout_duration))).length →
      (check_login_attempt st ip now).1 = (false, 0)) ∧
    (1 ≤ st.max_attempts →
      ((check_login_attempt (reset_attempts st ip) ip now).1).1 = true ∧
      ((check_login_attempt (reset_attempts st ip) ip now).1).2 = st.max_attempts - 1) := by
  constructor
  · intro h
    simp only [check_login_attempt, (cleanup_keeps_config st now).2, cleanup_filter_eq,
      (cleanup_keeps_config st now).1]
    rw [if_pos h]
  · intro hmax
    have hne : ¬ (st.max_attempts ≤ 0) := by omega
    have ha : (cleanup_old_attempts (reset_attempts st ip) now).attempts ip = [] := by
      unfold cleanup_old_attempts reset_attempts
      split <;> simp
    have hm : (cleanup_old_attempts (reset_attempts st ip) now).max_attempts =
        st.max_attempts := by
      unfold cleanup_old_attempts reset_attempts
      split <;> rfl
    simp only [check_login_attempt, ha, List.filter_nil, List.length_nil, hm]
    rw [if_neg hne]
    exact ⟨rfl, rfl⟩

/-- Witness for C8: an IP with two recent attempts against `max_attempts = 2`
is rejected, and allowed again right after a reset. -/
theorem c8_witness :
    (check_login_attempt loginTwoAttempts "ip" 10).1 = (false, 0) ∧
    ((check_login_attempt (reset_attempts loginTwoAttempts "ip") "ip" 10).1).1 = true :=
  ⟨(c8_lockout_and_reset loginTwoAttempts "ip" 10).1
      (by norm_num [loginTwoAttempts, List.filter]),
   ((c8_lockout_and_reset loginTwoAttempts "ip" 10).2 (by norm_num [loginTwoAttempts])).1⟩

/-! ## C1 — submission to the bounded queue -/

/-- C1 as stated is false on the code: submitting to a full queue
(`max_queue_size = 1` with one task already queued) returns the rejection
signal `None`, yet the result table has gained a `queued` entry under the
fresh id — the `processing` write precedes `put_nowait` and the `QueueFull`
handler does not undo it. -/
theorem c1_counterexample :
    (add_task stFullQueue "b" "p" "s" "en" 0).1 = none ∧
    (add_task stFullQueue "b" "p" "s" "en" 0).2.processing "b" = some queuedInfo ∧
    (add_task stFullQueue "b" "p" "s" "en" 0).2.processing ≠ stFullQueue.processing := by
  refine ⟨?_, ?_, ?_⟩
  · simp [add_task, stFullQueue]
  · simp [add_task, stFullQueue]
  · intro h
    have hb := congrFun h "b"
    simp [add_task, stFullQueue] at hb

/-- C1 amended: while the queue is below capacity, `add_task` succeeds,
returns the fresh identifier (fresh: not yet a key of the result table) and
creates its `queued` Result; at capacity it returns `None` without blocking
and leaves the queue itself unchanged — but the `queued` Result entry for the
fresh identifier is created in this case too, so a rejected submission does
change the result table. -/
theorem c1_add_task_amended (st : QueueServiceState) (tid p sid lg : String) (qs : ℕ)
    (hfresh : st.processing tid = none) :
    (¬ (0 < st.max_queue_size ∧ st.max_queue_size ≤ st.queue.length) →
      (add_task st tid p sid lg qs).1 = some tid ∧
      (add_task st tid p sid lg qs).2.processing tid = some queuedInfo ∧
      (add_task st tid p sid lg qs).2.queue =
        st.queue ++ [{ id := tid, prompt := p, session_id := sid, lang := lg,
                       queue_size := qs }] ∧
      (add_task st tid p sid lg qs).2.total_queued = st.total_queued + 1) ∧
    ((0 < st.max_queue_size ∧ st.max_queue_size ≤ st.queue.length) →
      (add_task st tid p sid lg qs).1 = none ∧
      (add_task st tid p sid lg qs).2.queue = st.queue ∧
      (add_task st tid p sid lg qs).2.processing tid = some queuedInfo ∧
      (add_task st tid p sid lg qs).2.processing ≠ st.processing ∧
      (add_task st tid p sid lg qs).2.total_rejected = st.total_rejected + 1) := by
  constructor
  · intro h
    simp [add_task, h]
  · intro h
    refine ⟨?_, ?_, ?_, ?_, ?_⟩
    · simp [add_task, h]
    · simp [add_task, h]
    · simp [add_task, h]
    · simp only [add_task, h, and_self, if_pos]
      intro heq
      have hb := congrFun heq tid
      simp [hfresh] at hb
    · simp [add_task, h]

/-- Witness for C1 amended: an empty queue of capacity one accepts the task
and records the `queued` Result. -/
theorem c1_witness :
    (add_task stEmptyQueue "b" "p" "s" "en" 0).1 = some "b" ∧
    (add_task stEmptyQueue "b" "p" "s" "en" 0).2.processing "b" = some queuedInfo ∧
    (add_task stEmptyQueue "b" "p" "s" "en" 0).2.queue =
      stEmptyQueue.queue ++ [{ id := "b", prompt := "p", session_id := "s", lang := "en",
                               queue_size := 0 }] ∧
    (add_task stEmptyQueue "b" "p" "s" "en" 0).2.total_queued =
      stEmptyQueue.total_queued + 1 :=
  (c1_add_task_amended stEmptyQueue "b" "p" "s" "en" 0 rfl).1 (by simp [stEmptyQueue])

/-! ## C4 / C10 — result polling -/

/-- If the entry stays present and non-terminal for `fuel` polls, the loop
exhausts its fuel, having only threaded the environment's own steps. -/
theorem waitLoop_no_terminal (env : ResultTable → ResultTable) (tid : String) :
    ∀ (fuel : ℕ) (tbl : ResultTable),
      (∀ k, k < fuel → ∃ e, (env^[k] tbl) tid = some e ∧ isTerminal e.status = false) →
      waitLoop env tid fuel tbl = (none, env^[fuel] tbl) := by
  intro fuel
  induction fuel with
  | zero => intro tbl _; simp [waitLoop]
  | succ m ih =>
    intro tbl h
    obtain ⟨e, he, hterm⟩ := h 0 (Nat.succ_pos m)
    rw [Function.iterate_zero_apply] at he
    have h' : ∀ k, k < m →
        ∃ e, (env^[k] (env tbl)) tid = some e ∧ isTerminal e.status = false := by
      intro k hk
      have hx := h (k + 1) (by omega)
      rwa [Function.iterate_succ_apply] at hx
    simp only [waitLoop, he, hterm, Bool.false_eq_true, if_false]
    rw [Function.iterate_succ_apply]
    exact ih (env tbl) h'

/-- If the entry first becomes terminal at poll `j < fuel`, the loop returns
that entry together with the table as the environment left it at step `j`. -/
theorem waitLoop_first_terminal (env : ResultTable → ResultTable) (tid : String) :
    ∀ (j fuel : ℕ) (tbl : ResultTable) (info : ResultInfo),
      j < fuel →
      (∀ k, k < j → ∃ e, (env^[k] tbl) tid = some e ∧ isTerminal e.status = false) →
      (env^[j] tbl) tid = some info → isTerminal info.status = true →
      waitLoop env tid fuel tbl = (some info, env^[j] tbl) := by
  intro j
  induction j with
  | zero =>
    intro fuel tbl info hj _ hinfo hterm
    obtain ⟨m, rfl⟩ : ∃ m, fuel = m + 1 := ⟨fuel - 1, by omega⟩
    rw [Function.iterate_zero_apply] at hinfo
    rw [Function.iterate_zero_apply]
    simp [waitLoop, hinfo, hterm]
  | succ i ih =>
    intro fuel tbl info hj hpre hinfo hterm
    obtain ⟨m, rfl⟩ : ∃ m, fuel = m + 1 := ⟨fuel - 1, by omega⟩
    obtain ⟨e, he, hterm0⟩ := hpre 0 (Nat.succ_pos i)
    rw [Function.iterate_zero_apply] at he
    have hpre' : ∀ k, k < i →
        ∃ e, (env^[k] (env tbl)) tid = some e ∧ isTerminal e.status = false := by
      intro k hk
      have hx := hpre (k + 1) (by omega)
      rwa [Function.iterate_succ_apply] at hx
    have hinfo' : (env^[i] (env tbl)) tid = some info := by
      rwa [Function.iterate_succ_apply] at hinfo
    simp only [waitLoop, he, hterm0, Bool.false_eq_true, if_false]
    rw [Function.iterate_succ_apply]
    exact ih m (env tbl) info (by omega) hpre' hinfo' hterm

/-- C4: `get_result` answers `not_found` for an unknown id; returns the stored
entry once it is terminal — in particular it keeps polling through
non-terminal snapshots until the entry first turns terminal within the time
budget; and when the entry never turns terminal (no worker activity, `env =
id`) it answers with status `timeout` while leaving the result table exactly
as it was. -/
theorem c4_get_result_spec (env : ResultTable → ResultTable) (tid : String) (t : ℕ)
    (tbl : ResultTable) :
    (tbl tid = none → get_result env tid t tbl = (notFoundInfo, tbl)) ∧
    (∀ info, tbl tid = some info → isTerminal info.status = true → 1 ≤ t →
      get_result env tid t tbl = (info, tbl)) ∧
    (∀ j info, j < min t max_iterations →
      (∀ k, k < j → ∃ e, (env^[k] tbl) tid = some e ∧ isTerminal e.status = false) →
      (env^[j] tbl) tid = some info → isTerminal info.status = true →
      get_result env tid t tbl = (info, env^[j] tbl)) ∧
    (∀ info, tbl tid = some info → isTerminal info.status = false →
      ((get_result id tid t tbl).1).status = "timeout" ∧
      (get_result id tid t tbl).2 = tbl) := by
  refine ⟨?_, ?_, ?_, ?_⟩
  · intro h
    simp [get_result, h]
  · intro info hsome hterm ht
    have hf : 0 < min t max_iterations := by
      simp only [max_iterations]
      omega
    have hw := waitLoop_first_terminal env tid 0 (min t max_iterations) tbl info hf
      (fun k hk => absurd hk (Nat.not_lt_zero k)) (by simpa using hsome) hterm
    rw [Function.iterate_zero_apply] at hw
    simp [get_result, hsome, hw]
  · intro j info hj hpre hinfo hterm
    have hw := waitLoop_first_terminal env tid j (min t max_iterations) tbl info hj
      hpre hinfo hterm
    have hsome0 : ∃ e, tbl tid = some e := by
      by_cases hj0 : j = 0
      · subst hj0
        exact ⟨info, by simpa using hinfo⟩
      · obtain ⟨e, he, _⟩ := hpre 0 (by omega)
        exact ⟨e, by simpa using he⟩
    obtain ⟨e0, he0⟩ := hsome0
    simp [get_result, he0, hw]
  · intro info hsome hterm
    have hiter : ∀ k : ℕ, (id : ResultTable → ResultTable)^[k] tbl = tbl := by
      intro k
      rw [Function.iterate_id]
      rfl
    have hw := waitLoop_no_terminal id tid (min t max_iterations) tbl
      (fun k _ => ⟨info, by rw [hiter k]; exact hsome, hterm⟩)
    rw [hiter (min t max_iterations)] at hw
    constructor
    · by_cases hlt : t < max_iterations <;>
        simp [get_result, hsome, hw, hlt, requestTimeoutInfo, internalTimeoutInfo]
    · simp [get_result, hsome, hw]

/-- Witness for C4: a `queued` entry that a worker completes at the first
poll step is returned as `completed`, together with the worker-updated table. -/
theorem c4_witness :
    get_result envFinish "t" 10 tblQueued =
      (completedInfo, envFinish^[1] tblQueued) :=
  (c4_get_result_spec envFinish "t" 10 tblQueued).2.2.1 1 completedInfo
    (by norm_num [max_iterations])
    (fun k hk => by
      have hk0 : k = 0 := by omega
      subst hk0
      exact ⟨queuedInfo, by simp [tblQueued], by decide⟩)
    (by simp [envFinish])
    (by decide)

/-- C10: when the entry never reaches a terminal status, `get_result` still
returns (status `timeout`) for every caller budget; once the caller allows at
least `max_iterations = 500` polls, it is the internal 500-iteration cap of
`_wait_for_completion` that fires, which by itself always answers after at
most 500 polls. -/
theorem c10_bounded_polling (env : ResultTable → ResultTable) (tid : String)
    (tbl : ResultTable) (t : ℕ)
    (h : ∀ k, k ≤ max_iterations →
      ∃ e, (env^[k] tbl) tid = some e ∧ isTerminal e.status = false) :
    ((get_result env tid t tbl).1).status = "timeout" ∧
    (max_iterations ≤ t → (get_result env tid t tbl).1 = internalTimeoutInfo) ∧
    wait_for_completion env tid tbl = (internalTimeoutInfo, env^[max_iterations] tbl) := by
  obtain ⟨e0, he0, _⟩ := h 0 (Nat.zero_le _)
  rw [Function.iterate_zero_apply] at he0
  have hw := waitLoop_no_terminal env tid (min t max_iterations) tbl
    (fun k hk => h k (le_of_lt (lt_of_lt_of_le hk (min_le_right _ _))))
  have hwfull := waitLoop_no_terminal env tid max_iterations tbl
    (fun k hk => h k (le_of_lt hk))
  refine ⟨?_, ?_, ?_⟩
  · by_cases hlt : t < max_iterations <;>
      simp [get_result, he0, hw, hlt, requestTimeoutInfo, internalTimeoutInfo]
  · intro hle
    simp [get_result, he0, hw, Nat.not_lt.mpr hle]
  · simp [wait_for_completion, hwfull]

/-- Witness for C10: a task stuck in `queued` with no worker activity; a
caller budget of 1000 polls (200 s) still gets the internal timeout answer. -/
theorem c10_witness :
    ((get_result id "t" 1000 tblQueued).1).status = "timeout" ∧
    (get_result id "t" 1000 tblQueued).1 = internalTimeoutInfo ∧
    wait_for_completion id "t" tblQueued =
      (internalTimeoutInfo, id^[max_iterations] tblQueued) := by
  have hc := c10_bounded_polling id "t" tblQueued 1000
    (fun k _ => ⟨queuedInfo, by simp [Function.iterate_id, tblQueued], by decide⟩)
  exact ⟨hc.1, hc.2.1 (by norm_num [max_iterations]), hc.2.2⟩

/-! ## C5 — circuit breaker lifecycle -/

/-- A failing call on a closed breaker: the counter goes up, the failure time
is recorded, and the breaker opens exactly when the new count reaches the
threshold.  Configuration is untouched. -/
theorem call_fail_closed (cb : CircuitBreaker) (now : ℚ)
    (hst : cb.state = CircuitState.closed) :
    (cb.call now false).breaker.failure_count = cb.failure_count + 1 ∧
    (cb.call now false).breaker.last_failure_time = some now ∧
    (cb.call now false).breaker.state =
      (if cb.failure_threshold ≤ cb.failure_count + 1 then CircuitState.opened
       else CircuitState.closed) ∧
    (cb.call now false).breaker.failure_threshold = cb.failure_threshold ∧
    (cb.call now false).breaker.recovery_timeout = cb.recovery_timeout := by
  by_cases hth : cb.failure_threshold ≤ cb.failure_count + 1 <;>
    simp [CircuitBreaker.call, hst, hth]

/-- While the streak stays strictly below the threshold, the breaker remains
closed and just counts the failures. -/
theorem failStreak_below (ts : List ℚ) : ∀ cb : CircuitBreaker,
    cb.state = CircuitState.closed →
    cb.failure_count + ts.length < cb.failure_threshold →
    (failStreak cb ts).state = CircuitState.closed ∧
    (failStreak cb ts).failure_count = cb.failure_count + ts.length ∧
    (failStreak cb ts).failure_threshold = cb.failure_threshold := by
  induction ts with
  | nil => intro cb hst hlt; exact ⟨hst, by simp [failStreak], rfl⟩
  | cons t rest ih =>
    intro cb hst hlt
    have hc := call_fail_closed cb t hst
    have hth : ¬ cb.failure_threshold ≤ cb.failure_count + 1 := by
      simp only [List.length_cons] at hlt
      omega
    have hstep : failStreak cb (t :: rest) = failStreak (cb.call t false).breaker rest := rfl
    rw [hstep]
    have hst' : (cb.call t false).breaker.state = CircuitState.closed := by
      rw [hc.2.2.1, if_neg hth]
    have := ih (cb.call t false).breaker hst' (by
      rw [hc.1, hc.2.2.2.1]
      simp only [List.length_cons] at hlt
      omega)
    refine ⟨this.1, ?_, ?_⟩
    · rw [this.2.1, hc.1]
      simp only [List.length_cons]
      omega
    · rw [this.2.2, hc.2.2.2.1]

/-- A nonempty failure streak that exactly reaches the threshold opens the
breaker. -/
theorem failStreak_opens (ts : List ℚ) : ∀ cb : CircuitBreaker,
    cb.state = CircuitState.closed → ts ≠ [] →
    cb.failure_count + ts.length = cb.failure_threshold →
    (failStreak cb ts).state = CircuitState.opened := by
  induction ts with
  | nil => intro cb _ hne _; exact absurd rfl hne
  | cons t rest ih =>
    intro cb hst _ hlen
    have hc := call_fail_closed cb t hst
    have hstep : failStreak cb (t :: rest) = failStreak (cb.call t false).breaker rest := rfl
    rw [hstep]
    cases rest with
    | nil =>
      have hth : cb.failure_threshold ≤ cb.failure_count + 1 := by
        simp only [List.length_cons, List.length_nil] at hlen
        omega
      show (failStreak (cb.call t false).breaker []).state = CircuitState.opened
      have : failStreak (cb.call t false).breaker [] = (cb.call t false).breaker := rfl
      rw [this, hc.2.2.1, if_pos hth]
    | cons u rest2 =>
      have hth : ¬ cb.failure_threshold ≤ cb.failure_count + 1 := by
        simp only [List.length_cons] at hlen
        omega
      have hst' : (cb.call t false).breaker.state = CircuitState.closed := by
        rw [hc.2.2.1, if_neg hth]
      refine ih (cb.call t false).breaker hst' (by simp) ?_
      rw [hc.1, hc.2.2.2.1]
      simp only [List.length_cons] at hlen ⊢
      omega

/-- C5: from a fresh closed breaker, `failure_threshold` consecutive failures
open the circuit; while open and inside the recovery window every call raises
`CircuitBreakerOpen` without invoking the wrapped function and without any
state change; once `recovery_timeout` has elapsed since the last failure the
trial call is invoked (`half_open`): a success closes the breaker and zeroes
the counter, a failure immediately re-opens it (recording the new failure
time), with no requirement to re-count failures from zero. -/
theorem c5_circuit_breaker_lifecycle :
    (∀ (cb : CircuitBreaker) (ts : List ℚ), cb.state = CircuitState.closed →
      cb.failure_count = 0 → ts.length = cb.failure_threshold →
      1 ≤ cb.failure_threshold → (failStreak cb ts).state = CircuitState.opened) ∧
    (∀ (cb : CircuitBreaker) (t now : ℚ) (ok : Bool), cb.state = CircuitState.opened →
      cb.last_failure_time = some t → now - t < cb.recovery_timeout →
      cb.call now ok =
        { outcome := CallOutcome.rejectedOpen, invoked := false, breaker := cb }) ∧
    (∀ (cb : CircuitBreaker) (t now : ℚ), cb.state = CircuitState.opened →
      cb.last_failure_time = some t → cb.recovery_timeout ≤ now - t →
      ((cb.call now true).invoked = true ∧
       (cb.call now true).breaker.state = CircuitState.closed ∧
       (cb.call now true).breaker.failure_count = 0) ∧
      ((cb.call now false).invoked = true ∧
       (cb.call now false).breaker.state = CircuitState.opened ∧
       (cb.call now false).breaker.last_failure_time = some now)) := by
  refine ⟨?_, ?_, ?_⟩
  · intro cb ts hst hcnt hlen hth
    have hne : ts ≠ [] := by
      intro hnil
      rw [hnil] at hlen
      simp at hlen
      omega
    exact failStreak_opens ts cb hst hne (by omega)
  · intro cb t now ok hst hlast hlt
    have hs : should_attempt_reset cb now = false := by
      simp only [should_attempt_reset, hst, hlast]
      simp [not_le.mpr hlt]
    simp [CircuitBreaker.call, hst, hs]
  · intro cb t now hst hlast hge
    have hs : should_attempt_reset cb now = true := by
      simp only [should_attempt_reset, hst, hlast]
      simp [hge]
    simp [CircuitBreaker.call, hst, hs]

/-- Witness for C5: threshold-2 breaker, failures at times 0 and 1; rejected
at time 10, trial allowed at time 61 (success closes, failure re-opens). -/
theorem c5_witness :
    (failStreak cbFresh2 [0, 1]).state = CircuitState.opened ∧
    cbOpenW.call 10 true =
      { outcome := CallOutcome.rejectedOpen, invoked := false, breaker := cbOpenW } ∧
    (cbOpenW.call 61 true).breaker.state = CircuitState.closed ∧
    (cbOpenW.call 61 true).breaker.failure_count = 0 ∧
    (cbOpenW.call 61 false).breaker.state = CircuitState.opened := by
  have h1 := c5_circuit_breaker_lifecycle.1 cbFresh2 [0, 1] rfl rfl rfl
    (by norm_num [cbFresh2])
  have h2 := c5_circuit_breaker_lifecycle.2.1 cbOpenW 1 10 true rfl rfl
    (by norm_num [cbOpenW])
  have h3 := c5_circuit_breaker_lifecycle.2.2 cbOpenW 1 61 rfl rfl
    (by norm_num [cbOpenW])
  exact ⟨h1, h2, h3.1.2.1, h3.1.2.2, h3.2.2.1⟩

/-! ## C6 — expired connections are never yielded -/

/-- Whatever the validation block yields has not outlived `max_lifetime`:
either it passed `_validate_connection` (which rejects expired connections
before probing), or it is the fresh replacement, created just now. -/
theorem validate_or_replace_not_expired (st : PoolState) (c : ConnWrapper)
    (now maxLife : ℚ) (fresh : ℕ → Option ConnWrapper) (k : ℕ)
    (hlife : 0 ≤ maxLife) (hfresh : ∀ i c2, fresh i = some c2 → c2.created_at = now) :
    ∀ c2 st2, validate_or_replace st c now maxLife fresh k = AcquireOutcome.yielded c2 st2 →
      c2.is_expired now maxLife = false := by
  intro c2 st2 h
  unfold validate_or_replace at h
  by_cases hv : validate_connection c now maxLife = true
  · rw [if_pos hv] at h
    cases h
    unfold validate_connection at hv
    by_cases he : c.is_expired now maxLife = true
    · rw [if_pos he] at hv
      exact absurd hv (by simp)
    · simpa using he
  · rw [if_neg hv] at h
    cases hf : fresh k with
    | none =>
      rw [hf] at h
      cases h
    | some cf =>
      rw [hf] at h
      injection h with h1 h2
      subst h1
      have hc := hfresh k cf hf
      unfold ConnWrapper.is_expired
      rw [hc, sub_self]
      simpa using not_lt.mpr hlife

/-- C6: `get_connection` never yields a connection past its maximum lifetime —
whatever reaches the caller is either validated (hence unexpired) or created
during this acquisition; in particular an expired pooled head, live or not, is
discarded and the fresh replacement is what gets yielded. -/
theorem c6_no_expired_yield (st : PoolState) (now maxLife : ℚ)
    (fresh : ℕ → Option ConnWrapper)
    (hlife : 0 ≤ maxLife) (hfresh : ∀ i c2, fresh i = some c2 → c2.created_at = now) :
    (∀ c st2, get_connection_attempt st now maxLife fresh = AcquireOutcome.yielded c st2 →
      c.is_expired now maxLife = false) ∧
    (∀ c0 rest c1, st.pool = c0 :: rest → c0.is_expired now maxLife = true →
      fresh 0 = some c1 →
      ∃ st2, get_connection_attempt st now maxLife fresh =
        AcquireOutcome.yielded c1 st2) := by
  constructor
  · intro c st2 h
    unfold get_connection_attempt at h
    cases hp : st.pool with
    | cons c0 rest =>
      rw [hp] at h
      exact validate_or_replace_not_expired _ c0 now maxLife fresh 0 hlife hfresh c st2 h
    | nil =>
      rw [hp] at h
      by_cases hsz : st.current_size < st.pool_size + st.max_overflow
      · rw [if_pos hsz] at h
        cases hf : fresh 0 with
        | none =>
          rw [hf] at h
          cases h
        | some cf =>
          rw [hf] at h
          exact validate_or_replace_not_expired _ cf now maxLife fresh 1 hlife hfresh c st2 h
      · rw [if_neg hsz] at h
        cases h
  · intro c0 rest c1 hp hexp hf
    have hv : validate_connection c0 now maxLife = false := by
      unfold validate_connection
      rw [if_pos hexp]
    refine ⟨{ pool := rest, current_size := st.current_size - 1 + 1,
              pool_size := st.pool_size, max_overflow := st.max_overflow,
              active_connections := st.active_connections + 1 }, ?_⟩
    simp [get_connection_attempt, hp, validate_or_replace, hv, hf]

/-- Witness for C6: a live pooled connection created at time 0 is expired at
time 4000 (lifetime 3600); the acquisition discards it and yields the fresh
replacement created at time 4000. -/
theorem c6_witness :
    ∃ st2, get_connection_attempt poolOld 4000 MAX_CONNECTION_LIFETIME freshAt4000 =
      AcquireOutcome.yielded { created_at := 4000, alive := true } st2 :=
  (c6_no_expired_yield poolOld 4000 MAX_CONNECTION_LIFETIME freshAt4000
      (by norm_num [MAX_CONNECTION_LIFETIME])
      (fun i c2 h => by
        simp only [freshAt4000, Option.some.injEq] at h
        rw [← h])).2
    connOld [] { created_at := 4000, alive := true } rfl
    (by norm_num [ConnWrapper.is_expired, connOld, MAX_CONNECTION_LIFETIME])
    rfl
